import Mathlib

/-!
Verification of the `arb-deploy` deployment script (scripts/arb_deploy.py).

The script discovers validator state directories `rollups/<rollup>/validator<i>`,
resolves per-node flags (password, blocktime) from each node's `config.json`,
renders a docker-compose manifest (one aggregator block plus validator blocks),
and drives an external container runtime (halt, build, up).

The embedding below models the pure core of the script directly from the
source: string templates become string concatenation, the scan loop and the
per-node render loop become recursive functions over an abstract filesystem
(`Nat → Bool` for directory existence, `Nat → Option NodeConfig` for loadable
configs), and the external side effects (shell commands, file writes) become
an explicit event trace produced by `deploy` and `main`.
-/

namespace ArbDeploy

/-! ### Python `str.replace`, specialised to character lists

`eth_url.replace("localhost", "arb-bridge-eth-geth")` replaces every
non-overlapping occurrence, scanning left to right.  `replaceAllAux` is the
same algorithm with an explicit fuel argument (the string length suffices,
since each step consumes at least one character). -/

def replaceAllAux (pat rep : List Char) : Nat → List Char → List Char
  | 0, s => s
  | _+1, [] => []
  | fuel+1, c :: s =>
    if pat.isPrefixOf (c :: s) then rep ++ replaceAllAux pat rep fuel (s.drop (pat.length - 1))
    else c :: replaceAllAux pat rep fuel s

def replaceAll (pat rep s : List Char) : List Char := replaceAllAux pat rep s.length s

/-- Pattern replaced in `eth_url` (line 118 of the script). -/
def lhPat : List Char := "localhost".data

/-- Replacement inserted into `eth_url` (line 118 of the script). -/
def gethRep : List Char := "arb-bridge-eth-geth".data

/-- One pass of the substitution performed on `eth_url`. -/
def rewriteOnce (s : String) : String := ⟨replaceAll lhPat gethRep s.data⟩

/-- Lines 116-120 of the script: the substitution is performed twice. -/
def rewriteEthUrl (s : String) : String := rewriteOnce (rewriteOnce s)

/-! Decomposition helpers for prefixes and infixes of an append. -/

theorem prefix_append_cases {α : Type} {A B v : List α} (h : v <+: A ++ B) :
    v <+: A ∨ ∃ w, v = A ++ w ∧ w <+: B := by
  induction A generalizing v with
  | nil => exact Or.inr ⟨v, rfl, h⟩
  | cons a A ih =>
    cases v with
    | nil => exact Or.inl List.nil_prefix
    | cons x v =>
      rw [List.cons_append, List.cons_prefix_cons] at h
      obtain ⟨rfl, h⟩ := h
      rcases ih h with h' | ⟨w, rfl, hw⟩
      · exact Or.inl (List.cons_prefix_cons.mpr ⟨rfl, h'⟩)
      · exact Or.inr ⟨w, rfl, hw⟩

theorem infix_append_cases {α : Type} {A B p : List α} (h : p <:+: A ++ B) :
    p <:+: A ∨ p <:+: B ∨ ∃ X Y, p = X ++ Y ∧ X ≠ [] ∧ X <:+ A ∧ Y <+: B := by
  induction A generalizing p with
  | nil => exact Or.inr (Or.inl h)
  | cons a A ih =>
    obtain ⟨u, v, huv⟩ := h
    cases u with
    | nil =>
      have hp : p <+: (a :: A) ++ B := ⟨v, huv⟩
      rcases prefix_append_cases hp with hpA | ⟨w, rfl, hw⟩
      · exact Or.inl hpA.isInfix
      · by_cases hwnil : w = []
        · subst hwnil
          rw [List.append_nil]
          exact Or.inl List.infix_rfl
        · exact Or.inr (Or.inr ⟨a :: A, w, rfl, by simp, List.suffix_rfl, hw⟩)
    | cons x u =>
      simp only [List.cons_append] at huv
      injection huv with hxa htail
      rcases ih ⟨u, v, htail⟩ with h' | h' | ⟨X, Y, hp, hXne, hXsuf, hY⟩
      · exact Or.inl (List.infix_cons h')
      · exact Or.inr (Or.inl h')
      · exact Or.inr (Or.inr ⟨X, Y, hp, hXne, hXsuf.trans (List.suffix_cons a A), hY⟩)

/-- Every nonempty suffix of `a` is of the form `a.drop i` with `i < a.length`;
this turns the bounded, decidable family of facts `h` into the suffix form
needed below. -/
theorem suffix_not_prefix_of_drops {a b : List Char}
    (h : ∀ i < a.length, ¬ a.drop i <+: b) :
    ∀ v, v ≠ [] → v <:+ a → ¬ v <+: b := by
  rintro v hne ⟨u, hu⟩ hpre
  have hv : v = a.drop u.length := by rw [← hu, List.drop_left]
  have hlen := congrArg List.length hu
  simp only [List.length_append] at hlen
  have hvpos : 0 < v.length := List.length_pos.mpr hne
  exact h u.length (by omega) (hv ▸ hpre)

/-- Any nonempty suffix of the pattern that is a prefix of the output of
`replaceAllAux` is already a prefix of the input: the replacement text can
never start such a suffix. -/
theorem replaceAllAux_prefix_inv {pat rep : List Char}
    (hLen : pat.length < rep.length)
    (hSufRep : ∀ v, v ≠ [] → v <:+ pat → ¬ v <+: rep) :
    ∀ fuel s v, s.length ≤ fuel → v ≠ [] → v <:+ pat →
      v <+: replaceAllAux pat rep fuel s → v <+: s := by
  intro fuel
  induction fuel with
  | zero =>
    intro s v _ _ _ hpre
    simpa [replaceAllAux] using hpre
  | succ fuel ih =>
    intro s v hlen hne hsuf hpre
    cases s with
    | nil =>
      simp only [replaceAllAux, List.prefix_nil] at hpre
      exact absurd hpre hne
    | cons c s' =>
      simp only [replaceAllAux] at hpre
      by_cases hmatch : pat.isPrefixOf (c :: s')
      · rw [if_pos hmatch] at hpre
        rcases prefix_append_cases hpre with hvrep | ⟨w, rfl, _⟩
        · exact absurd hvrep (hSufRep v hne hsuf)
        · exfalso
          have h1 : rep.length ≤ (rep ++ w).length := by simp
          have h2 : (rep ++ w).length ≤ pat.length := hsuf.length_le
          omega
      · rw [if_neg hmatch] at hpre
        obtain ⟨x, v', rfl⟩ := List.exists_cons_of_ne_nil hne
        rw [List.cons_prefix_cons] at hpre
        obtain ⟨rfl, hv'⟩ := hpre
        cases v' with
        | nil => exact List.cons_prefix_cons.mpr ⟨rfl, List.nil_prefix⟩
        | cons y v'' =>
          have hsuf' : (y :: v'') <:+ pat := (List.suffix_cons x (y :: v'')).trans hsuf
          have hlen' : s'.length ≤ fuel := by
            simp only [List.length_cons] at hlen; omega
          have := ih s' (y :: v'') hlen' (by simp) hsuf' hv'
          exact List.cons_prefix_cons.mpr ⟨rfl, this⟩

/-- The output of `replaceAllAux` contains no occurrence of the pattern,
provided the pattern cannot overlap the replacement text in any way. -/
theorem replaceAllAux_no_occurrence {pat rep : List Char}
    (hpatne : pat ≠ [])
    (hLen : pat.length < rep.length)
    (hNotInf : ¬ pat <:+: rep)
    (hSufRep : ∀ v, v ≠ [] → v <:+ pat → ¬ v <+: rep)
    (hRepSuf : ∀ v, v ≠ [] → v <:+ rep → ¬ v <+: pat) :
    ∀ fuel s, s.length ≤ fuel → ¬ pat <:+: replaceAllAux pat rep fuel s := by
  intro fuel
  induction fuel with
  | zero =>
    intro s hlen hinf
    have hs : s = [] := List.eq_nil_of_length_eq_zero (Nat.le_zero.mp hlen)
    subst hs
    simp only [replaceAllAux, List.infix_nil] at hinf
    exact hpatne hinf
  | succ fuel ih =>
    intro s hlen hinf
    cases s with
    | nil =>
      simp only [replaceAllAux, List.infix_nil] at hinf
      exact hpatne hinf
    | cons c s' =>
      simp only [replaceAllAux] at hinf
      by_cases hmatch : pat.isPrefixOf (c :: s')
      · rw [if_pos hmatch] at hinf
        rcases infix_append_cases hinf with h' | h' | ⟨X, Y, hp, hXne, hXsuf, _⟩
        · exact hNotInf h'
        · have hlen' : (s'.drop (pat.length - 1)).length ≤ fuel := by
            simp only [List.length_drop]
            simp only [List.length_cons] at hlen
            omega
          exact ih _ hlen' h'
        · exact hRepSuf X hXne hXsuf (hp ▸ List.prefix_append X Y)
      · rw [if_neg hmatch] at hinf
        have hnopre : ¬ pat <+: (c :: s') := fun hp =>
          hmatch (List.isPrefixOf_iff_prefix.mpr hp)
        rcases List.infix_cons_iff.mp hinf with hpre | h'
        · obtain ⟨p₀, pr, rfl⟩ := List.exists_cons_of_ne_nil hpatne
          rw [List.cons_prefix_cons] at hpre
          obtain ⟨rfl, hpr⟩ := hpre
          cases pr with
          | nil => exact hnopre (List.cons_prefix_cons.mpr ⟨rfl, List.nil_prefix⟩)
          | cons y pr' =>
            have hsuf' : (y :: pr') <:+ (p₀ :: y :: pr') := List.suffix_cons p₀ (y :: pr')
            have hlen' : s'.length ≤ fuel := by
              simp only [List.length_cons] at hlen; omega
            have hs' := replaceAllAux_prefix_inv hLen hSufRep fuel s' (y :: pr')
              hlen' (by simp) hsuf' hpr
            exact hnopre (List.cons_prefix_cons.mpr ⟨rfl, hs'⟩)
        · have hlen' : s'.length ≤ fuel := by
            simp only [List.length_cons] at hlen; omega
          exact ih s' hlen' h'

/-- When the input contains no occurrence of the pattern, the replacement is
the identity. -/
theorem replaceAllAux_eq_of_no_occurrence {pat rep : List Char} :
    ∀ fuel s, ¬ pat <:+: s → replaceAllAux pat rep fuel s = s := by
  intro fuel
  induction fuel with
  | zero => intro s _; rfl
  | succ fuel ih =>
    intro s h
    cases s with
    | nil => rfl
    | cons c s' =>
      have hnomatch : ¬ pat.isPrefixOf (c :: s') := fun hm =>
        h (List.isPrefixOf_iff_prefix.mp hm).isInfix
      simp only [replaceAllAux, if_neg hnomatch]
      have h' : ¬ pat <:+: s' := fun hinf => h (List.infix_cons hinf)
      rw [ih s' h']

theorem lh_core_suf_rep : ∀ i < lhPat.length, ¬ lhPat.drop i <+: gethRep := by decide

theorem lh_core_rep_suf : ∀ i < gethRep.length, ¬ gethRep.drop i <+: lhPat := by decide

theorem replaceAll_localhost_idem (s : List Char) :
    replaceAll lhPat gethRep (replaceAll lhPat gethRep s) = replaceAll lhPat gethRep s :=
  replaceAllAux_eq_of_no_occurrence _ _
    (replaceAllAux_no_occurrence (by decide) (by decide) (by decide)
      (suffix_not_prefix_of_drops lh_core_suf_rep)
      (suffix_not_prefix_of_drops lh_core_rep_suf)
      s.length s le_rfl)

/-! ### docker-compose templates (lines 42-86 of the script)

The Python `%`-interpolation of the two template strings becomes string
concatenation.  The single-quote character of the template is built
explicitly as `sQuote`. -/

/-- Single-quote character used by the docker-compose template. -/
def sQuote : String := String.singleton (Char.ofNat 39)

/-- Command field of the aggregator service: `command: %s state %s %s`
interpolated with `(extra_flags, ws_port, rollup_address)` — the flags come
before the `state` verb. -/
def aggregator_command (extra_flags ws_port rollup_address : String) : String :=
  extra_flags ++ " state " ++ ws_port ++ " " ++ rollup_address

/-- COMPOSE_HEADER template interpolated by `compose_header` (lines 42-62). -/
def compose_header (state_abspath extra_flags ws_port rollup_address : String) : String :=
  "# Machine generated by `arb-deploy`. Do not version control.\n" ++
  "version: " ++ sQuote ++ "3" ++ sQuote ++ "\n" ++
  "networks:\n" ++
  "    default:\n" ++
  "        external:\n" ++
  "            name: arb-network\n" ++
  "services:\n" ++
  "    arb-tx-aggregator:\n" ++
  "        volumes:\n" ++
  "            - " ++ state_abspath ++ ":/home/user/state\n" ++
  "        image: arb-validator\n" ++
  "        entrypoint: " ++ sQuote ++ "/home/user/go/bin/arb-tx-aggregator" ++ sQuote ++ "\n" ++
  "        command: " ++ aggregator_command extra_flags ws_port rollup_address ++ "\n" ++
  "        ports:\n" ++
  "            - " ++ sQuote ++ "1235:1235" ++ sQuote ++ "\n" ++
  "            - " ++ sQuote ++ "8547:8547" ++ sQuote ++ "\n"

/-- Command field of a validator service: `command: validate %s state %s %s`. -/
def validator_command (extra_flags ws_port rollup_address : String) : String :=
  "validate " ++ extra_flags ++ " state " ++ ws_port ++ " " ++ rollup_address

/-- Service name `arb-validator%d` of validator `validator_id`. -/
def validator_service_name (validator_id : Nat) : String :=
  "arb-validator" ++ Nat.repr validator_id

/-- COMPOSE_VALIDATOR template interpolated by `compose_validator`
(lines 67-86). -/
def compose_validator (validator_id : Nat)
    (state_abspath extra_flags ws_port rollup_address : String) : String :=
  "\n    " ++ validator_service_name validator_id ++ ":\n" ++
  "        volumes:\n" ++
  "            - " ++ state_abspath ++ ":/home/user/state\n" ++
  "        image: arb-validator\n" ++
  "        command: " ++ validator_command extra_flags ws_port rollup_address ++ "\n"

/-- String infix relation, read on the underlying character lists. -/
abbrev strInfix (a b : String) : Prop := a.data <:+: b.data

/-- Exhibiting a string as `p ++ a ++ q` shows that `a` occurs inside it. -/
theorem strInfix_intro {a b : String} (p q : String) (h : b = p ++ a ++ q) : strInfix a b := by
  rw [h]
  show a.data <:+: (p ++ a ++ q).data
  rw [String.data_append, String.data_append]
  exact List.infix_append _ _ _

/-! ### Node configuration and flag resolution (lines 111-139) -/

/-- Fields of a node's `config.json` consumed by the script.  `blocktime`
holds the `%s`-rendered form of the JSON value. -/
structure NodeConfig where
  rollup_address : String
  eth_url : String
  password : Option String
  blocktime : Option String
deriving DecidableEq

inductive DeployError where
  | configLoad (index : Nat)
  | passwordRequired (msg : String)
deriving DecidableEq

/-- Message of the exception raised at lines 127-129 of the script. -/
def passwordRequiredMsg : String :=
  "arb_deploy requires validator password through [--password=pass] parameter or in config.json file"

/-- Lines 115 and 122-129: `extra_flags` starts out empty each iteration and
receives the password flag; the CLI password (truthy, i.e. nonempty) takes
precedence, else the config's `password` field, else the exception is
raised.  The argparse default `None` and an empty string are both falsy in
Python, so the CLI password is modelled as a `String` that is absent exactly
when empty. -/
def extraFlagsPassword (password : String) (data : NodeConfig) : Except DeployError String :=
  if password = "" then
    match data.password with
    | some p => Except.ok (" -password=" ++ p)
    | none => Except.error (DeployError.passwordRequired passwordRequiredMsg)
  else Except.ok (" -password=" ++ password)

/-- Lines 135-136: for a non-aggregator node the `blocktime` field, when
present, is appended to the flags. -/
def withBlocktime (extra_flags : String) (data : NodeConfig) : String :=
  match data.blocktime with
  | some bt => extra_flags ++ " -blocktime=" ++ bt
  | none => extra_flags

/-! ### Topology discovery (lines 101-105)

The `while` loop starts with `n_validators = 1` and increments while
`states_path % n_validators` exists; the filesystem is abstracted to the
existence predicate `dirExists`, and the unbounded loop gets a fuel
parameter (the physical filesystem is finite). -/

def scanValidators (dirExists : Nat → Bool) : Nat → Nat → Nat
  | 0, n => n
  | fuel+1, n => if dirExists n then scanValidators dirExists fuel (n+1) else n

def n_validators (dirExists : Nat → Bool) (fuel : Nat) : Nat :=
  scanValidators dirExists fuel 1

/-- Discovery as the specification words it: start at index 0, repeatedly
check directory existence, stop at the first missing index.  Modelled from
the spec for refinement comparison with `n_validators`, which the script
computes by starting its existence checks at index 1. -/
def discoverySpec (dirExists : Nat → Bool) (fuel : Nat) : Nat :=
  scanValidators dirExists fuel 0

/-! ### The render loop of `deploy` (lines 109-139)

State threaded through the `for` loop: the accumulated manifest text and
the most recent `rollup_address` (the Python variables `contents` and
`rollup_address`).  `extra_flags`, `eth_url` and `data` are re-bound on
every iteration, exactly as in the source. -/

structure LoopSt where
  contents : String
  rollup_address : String
deriving DecidableEq

def deployLoop (password : String) (states_path : Nat → String)
    (config_of : Nat → Option NodeConfig) :
    List Nat → LoopSt → Except DeployError LoopSt
  | [], st => Except.ok st
  | i :: rest, st =>
    match config_of i with
    | none => Except.error (DeployError.configLoad i)
    | some data =>
      let rollup_address := data.rollup_address
      let eth_url := rewriteEthUrl data.eth_url
      match extraFlagsPassword password data with
      | Except.error e => Except.error e
      | Except.ok extra_flags =>
        if i = 0 then
          deployLoop password states_path config_of rest
            ⟨compose_header (states_path 0) extra_flags eth_url rollup_address, rollup_address⟩
        else
          deployLoop password states_path config_of rest
            ⟨st.contents ++
                compose_validator i (states_path i) (withBlocktime extra_flags data) eth_url
                  rollup_address,
              rollup_address⟩

/-- The manifest block contributed by node `i` alone: the same computation
as one iteration of `deployLoop`, as a function of node `i`'s config only. -/
def nodeBlock (password : String) (states_path : Nat → String)
    (config_of : Nat → Option NodeConfig) (i : Nat) : Except DeployError String :=
  match config_of i with
  | none => Except.error (DeployError.configLoad i)
  | some data =>
    let rollup_address := data.rollup_address
    let eth_url := rewriteEthUrl data.eth_url
    match extraFlagsPassword password data with
    | Except.error e => Except.error e
    | Except.ok extra_flags =>
      if i = 0 then
        Except.ok (compose_header (states_path 0) extra_flags eth_url rollup_address)
      else
        Except.ok
          (compose_validator i (states_path i) (withBlocktime extra_flags data) eth_url
            rollup_address)

/-- Concatenation of the per-node blocks, in scan order. -/
def renderNodes (password : String) (states_path : Nat → String)
    (config_of : Nat → Option NodeConfig) : List Nat → Except DeployError String
  | [] => Except.ok ""
  | i :: rest =>
    match nodeBlock password states_path config_of i with
    | Except.error e => Except.error e
    | Except.ok b =>
      match renderNodes password states_path config_of rest with
      | Except.error e => Except.error e
      | Except.ok s => Except.ok (b ++ s)

/-! ### Deployment controller and CLI (lines 95-152 and 192-223)

External commands and file writes become events; the external build step's
return value is the parameter `build_status`. -/

inductive Event where
  | createNetwork
  | haltDocker
  | writeManifest (contents : String)
  | buildImage
  | composeUp (n_validators : Nat) (rollup_address : String)
  | parseReject
deriving DecidableEq

inductive Outcome where
  | completed
  | exitCode (code : Nat)
  | exception (e : DeployError)
deriving DecidableEq

/-- The `deploy` function (lines 95-152): halt, scan, render, write the
manifest, then conditionally build (aborting via `exit(1)` on a non-zero
build status) and conditionally bring the deployment up.  `states_path`
abstracts `abspath("rollups/<rollup>/validator%s")` applied to an index. -/
def deploy (dirExists : Nat → Bool) (config_of : Nat → Option NodeConfig)
    (states_path : Nat → String) (build_status : Nat) (fuel : Nat)
    (sudo_flag build_flag up_flag : Bool) (password : String) : List Event × Outcome :=
  let n := n_validators dirExists fuel
  match deployLoop password states_path config_of (List.range n) ⟨"", ""⟩ with
  | Except.error e => ([Event.haltDocker], Outcome.exception e)
  | Except.ok st =>
    let written := [Event.haltDocker, Event.writeManifest st.contents]
    let buildPhase : List Event × Bool :=
      if !up_flag || build_flag then ([Event.buildImage], build_status != 0) else ([], false)
    if buildPhase.2 then (written ++ buildPhase.1, Outcome.exitCode 1)
    else if !build_flag || up_flag then
      (written ++ buildPhase.1 ++ [Event.composeUp n st.rollup_address], Outcome.completed)
    else (written ++ buildPhase.1, Outcome.completed)

/-- The `main` function (lines 192-223): `./scripts/create-network` runs
first, then argparse rejects the mutually exclusive pair `--build`/`--up`
(exit status 2), and otherwise `deploy` runs. -/
def main (dirExists : Nat → Bool) (config_of : Nat → Option NodeConfig)
    (states_path : Nat → String) (build_status : Nat) (fuel : Nat)
    (args_sudo args_build args_up : Bool) (args_password : String) : List Event × Outcome :=
  let pre := [Event.createNetwork]
  if args_build && args_up then (pre ++ [Event.parseReject], Outcome.exitCode 2)
  else
    let r := deploy dirExists config_of states_path build_status fuel args_sudo args_build
      args_up args_password
    (pre ++ r.1, r.2)

/-- Every event except the argparse rejection itself is a side effect: an
external command execution, a teardown, or a file write. -/
def isSideEffect : Event → Bool
  | Event.parseReject => false
  | _ => true

/-- Whether a trace performs no side effect before its rejection event. -/
def noSideEffectBeforeReject (trace : List Event) : Bool :=
  (trace.takeWhile (fun e => !(e == Event.parseReject))).all (fun e => !isSideEffect e)

/-! ### Evaluation rules of the flag resolver -/

theorem extraFlagsPassword_empty_some {d : NodeConfig} {p : String} (hp : d.password = some p) :
    extraFlagsPassword "" d = Except.ok (" -password=" ++ p) := by
  simp [extraFlagsPassword, hp]

theorem extraFlagsPassword_empty_none {d : NodeConfig} (hp : d.password = none) :
    extraFlagsPassword "" d = Except.error (DeployError.passwordRequired passwordRequiredMsg) := by
  simp [extraFlagsPassword, hp]

theorem extraFlagsPassword_cli {password : String} (hpw : password ≠ "") (d : NodeConfig) :
    extraFlagsPassword password d = Except.ok (" -password=" ++ password) := by
  simp [extraFlagsPassword, hpw]

/-! ### Injectivity of decimal rendering

`validator_service_name` is `"arb-validator" ++ Nat.repr i`; distinct indices
give distinct service names because decimal rendering has a left inverse,
the digit-folding decoder below. -/

def decodeDigit (c : Char) : Nat := c.toNat - 48

def decodeDigits (l : List Char) : Nat := l.foldl (fun a c => 10 * a + decodeDigit c) 0

theorem decodeDigit_digitChar : ∀ d < 10, decodeDigit (Nat.digitChar d) = d := by decide

theorem foldl_toDigitsCore :
    ∀ fuel n a ds, n < fuel →
      ∃ k, (Nat.toDigitsCore 10 fuel n ds).foldl (fun a c => 10 * a + decodeDigit c) a =
        ds.foldl (fun a c => 10 * a + decodeDigit c) (a * 10 ^ k + n) := by
  intro fuel
  induction fuel with
  | zero => intro n a ds hn; omega
  | succ fuel ih =>
    intro n a ds hn
    simp only [Nat.toDigitsCore]
    by_cases hdiv : n / 10 = 0
    · have hlt : n < 10 := by
        have hdm := Nat.div_add_mod n 10
        have hml := Nat.mod_lt n (show 0 < 10 by omega)
        omega
      refine ⟨1, ?_⟩
      rw [if_pos hdiv]
      simp only [List.foldl]
      congr 1
      rw [decodeDigit_digitChar (n % 10) (Nat.mod_lt n (by omega)), pow_one]
      have : n % 10 = n := Nat.mod_eq_of_lt hlt
      omega
    · rw [if_neg hdiv]
      have hpos : 0 < n := by
        rcases Nat.eq_zero_or_pos n with rfl | h
        · simp at hdiv
        · exact h
      have hlt : n / 10 < fuel := lt_of_lt_of_le (Nat.div_lt_self hpos (by omega)) (by omega)
      obtain ⟨k, hk⟩ := ih (n / 10) a (Nat.digitChar (n % 10) :: ds) hlt
      refine ⟨k + 1, ?_⟩
      rw [hk]
      simp only [List.foldl]
      congr 1
      rw [decodeDigit_digitChar (n % 10) (Nat.mod_lt n (by omega))]
      have h10 : 10 * (n / 10) + n % 10 = n := Nat.div_add_mod n 10
      calc 10 * (a * 10 ^ k + n / 10) + n % 10
          = a * (10 ^ k * 10) + (10 * (n / 10) + n % 10) := by ring
        _ = a * 10 ^ (k + 1) + n := by rw [h10, pow_succ]

theorem decodeDigits_toDigits (n : Nat) : decodeDigits (Nat.toDigits 10 n) = n := by
  obtain ⟨k, hk⟩ := foldl_toDigitsCore (n + 1) n 0 [] (Nat.lt_succ_self n)
  simpa [decodeDigits, Nat.toDigits] using hk

theorem Nat_repr_injective : Function.Injective Nat.repr := by
  intro m n h
  have hdata : Nat.toDigits 10 m = Nat.toDigits 10 n := congrArg String.data h
  have := congrArg decodeDigits hdata
  rwa [decodeDigits_toDigits, decodeDigits_toDigits] at this

theorem validator_service_name_injective {i j : Nat} (hne : i ≠ j) :
    validator_service_name i ≠ validator_service_name j := by
  intro heq
  apply hne
  have hdata := congrArg String.data heq
  simp only [validator_service_name, String.data_append] at hdata
  exact Nat_repr_injective (String.ext (List.append_cancel_left hdata))

/-! ### Characterisation of the discovery scan -/

theorem scanValidators_ge (dirExists : Nat → Bool) :
    ∀ fuel start, start ≤ scanValidators dirExists fuel start := by
  intro fuel
  induction fuel with
  | zero => intro start; exact le_rfl
  | succ fuel ih =>
    intro start
    simp only [scanValidators]
    by_cases h : dirExists start
    · rw [if_pos h]
      exact le_trans (Nat.le_succ start) (ih (start + 1))
    · rw [if_neg h]

/-- The scan returns the least index `n ≥ start` whose directory is missing,
whenever the fuel reaches that index. -/
theorem scanValidators_eq (dirExists : Nat → Bool) :
    ∀ fuel start n, start ≤ n → n ≤ start + fuel → dirExists n = false →
      (∀ m, start ≤ m → m < n → dirExists m = true) →
      scanValidators dirExists fuel start = n := by
  intro fuel
  induction fuel with
  | zero =>
    intro start n h1 h2 _ _
    have hsn : start = n := by omega
    rw [hsn]
    rfl
  | succ fuel ih =>
    intro start n h1 h2 hn hall
    simp only [scanValidators]
    by_cases hs : start = n
    · subst hs
      simp [hn]
    · have hstart : dirExists start = true := hall start le_rfl (by omega)
      simp only [hstart, if_true]
      exact ih (start + 1) n (by omega) (by omega) hn fun m hm1 hm2 => hall m (by omega) hm2

/-! ### Decomposition of the render loop into per-node blocks -/

theorem string_append_empty (s : String) : s ++ "" = s :=
  String.ext (by simp)

/-- On an index list that avoids 0, the loop appends exactly the per-node
blocks to the incoming contents. -/
theorem deployLoop_append_of_pos (password : String) (states_path : Nat → String)
    (config_of : Nat → Option NodeConfig) :
    ∀ l st, (∀ j ∈ l, j ≠ 0) →
      (deployLoop password states_path config_of l st).map LoopSt.contents =
        (renderNodes password states_path config_of l).map (fun s => st.contents ++ s) := by
  intro l
  induction l with
  | nil => intro st _; simp [deployLoop, renderNodes, Except.map, string_append_empty]
  | cons i rest ih =>
    intro st hall
    have hi : i ≠ 0 := hall i (List.mem_cons_self i rest)
    have hrest : ∀ j ∈ rest, j ≠ 0 := fun j hj => hall j (List.mem_cons_of_mem i hj)
    simp only [deployLoop, renderNodes, nodeBlock]
    rcases hcfg : config_of i with _ | data
    · simp [Except.map]
    · simp only []
      rcases hef : extraFlagsPassword password data with e | extra_flags
      · simp [Except.map]
      · simp only [if_neg hi]
        rw [ih _ hrest]
        rcases renderNodes password states_path config_of rest with e | s
        · simp [Except.map]
        · simp [Except.map, String.append_assoc]

/-- For the index list `range n` with `n ≥ 1` the final contents are exactly
the concatenated per-node blocks; the incoming contents are discarded
because iteration 0 assigns (rather than appends to) `contents`. -/
theorem deployLoop_range_contents (password : String) (states_path : Nat → String)
    (config_of : Nat → Option NodeConfig) (n : Nat) (hn : 1 ≤ n) (st : LoopSt) :
    (deployLoop password states_path config_of (List.range n) st).map LoopSt.contents =
      renderNodes password states_path config_of (List.range n) := by
  obtain ⟨m, rfl⟩ : ∃ m, n = m + 1 := ⟨n - 1, by omega⟩
  rw [List.range_succ_eq_map]
  have hpos : ∀ j ∈ List.map Nat.succ (List.range m), j ≠ 0 := by
    intro j hj
    rw [List.mem_map] at hj
    obtain ⟨j', _, rfl⟩ := hj
    exact Nat.succ_ne_zero j'
  simp only [deployLoop, renderNodes, nodeBlock]
  rcases hcfg : config_of 0 with _ | data
  · simp [Except.map]
  · simp only []
    rcases hef : extraFlagsPassword password data with e | extra_flags
    · simp [Except.map]
    · simp only [eq_self_iff_true, if_true]
      rw [deployLoop_append_of_pos password states_path config_of _ _ hpos]
      rcases renderNodes password states_path config_of (List.map Nat.succ (List.range m))
        with e | s
      · simp [Except.map]
      · simp [Except.map]

/-- Under an empty CLI password, if every config on the list loads but some
config on the list has no `password` field, the loop raises the password
exception. -/
theorem deployLoop_password_failure (states_path : Nat → String)
    (config_of : Nat → Option NodeConfig) :
    ∀ l st, (∀ j ∈ l, (config_of j).isSome = true) →
      (∃ j ∈ l, ∃ d, config_of j = some d ∧ d.password = none) →
      deployLoop "" states_path config_of l st =
        Except.error (DeployError.passwordRequired passwordRequiredMsg) := by
  intro l
  induction l with
  | nil =>
    intro st _ hex
    obtain ⟨j, hj, _⟩ := hex
    exact absurd hj (List.not_mem_nil j)
  | cons i rest ih =>
    intro st hall hex
    have hsome := hall i (List.mem_cons_self i rest)
    obtain ⟨d, hd⟩ := Option.isSome_iff_exists.mp hsome
    simp only [deployLoop, hd]
    rcases hp : d.password with _ | p
    · simp [extraFlagsPassword_empty_none hp]
    · have hex' : ∃ j ∈ rest, ∃ d', config_of j = some d' ∧ d'.password = none := by
        obtain ⟨j, hj, d', hd', hdp'⟩ := hex
        rcases List.mem_cons.mp hj with rfl | hjr
        · rw [hd] at hd'
          cases hd'
          rw [hp] at hdp'
          cases hdp'
        · exact ⟨j, hjr, d', hd', hdp'⟩
      have hrest : ∀ j ∈ rest, (config_of j).isSome = true := fun j hj =>
        hall j (List.mem_cons_of_mem i hj)
      simp only [extraFlagsPassword_empty_some hp]
      by_cases hi : i = 0
      · simp only [if_pos hi]
        exact ih _ hrest hex'
      · simp only [if_neg hi]
        exact ih _ hrest hex'

/-- With node 0's config unloadable, the loop fails immediately with the
config-load error, for any nonempty scan result. -/
theorem deployLoop_configLoad_zero (password : String) (states_path : Nat → String)
    (config_of : Nat → Option NodeConfig) (h0 : config_of 0 = none) (n : Nat) (hn : 1 ≤ n)
    (st : LoopSt) :
    deployLoop password states_path config_of (List.range n) st =
      Except.error (DeployError.configLoad 0) := by
  obtain ⟨m, rfl⟩ : ∃ m, n = m + 1 := ⟨n - 1, by omega⟩
  rw [List.range_succ_eq_map]
  simp [deployLoop, h0]

/-! ### Concrete fixtures used by witnesses and counterexamples -/

/-- Directories at indices 0, 1, 2, a gap at 3 and a stray directory at 4. -/
def exampleDirs : Nat → Bool := fun i => i == 0 || i == 1 || i == 2 || i == 4

/-- A filesystem with no validator directories at all. -/
def noDirs : Nat → Bool := fun _ => false

/-- A filesystem with no loadable configs at all. -/
def noConfigs : Nat → Option NodeConfig := fun _ => none

def emptyPath : Nat → String := fun _ => ""

/-- A config with no `password` field. -/
def cfgNoPw : NodeConfig := ⟨"0xabc", "ws://localhost:1234", none, none⟩

/-- A config with a password and a blocktime. -/
def cfgBt : NodeConfig := ⟨"0xabc", "ws://localhost:1234", some "pw", some "100"⟩

/-- Every node has config `cfgBt`. -/
def oneCfg : Nat → Option NodeConfig := fun _ => some cfgBt

/-! ### Claim theorems -/

/-- C1: Password resolution precedence.  A nonempty CLI password `cli` always
wins: the resolved extra flags equal " -password=" ++ cli whatever the node
config contains, and they never equal the flag built from a differing config
password; with no CLI password, a config password p yields
" -password=" ++ p. -/
theorem password_precedence (cli : String) (d : NodeConfig) :
    (cli ≠ "" →
      extraFlagsPassword cli d = Except.ok (" -password=" ++ cli) ∧
      ∀ y, d.password = some y → y ≠ cli →
        extraFlagsPassword cli d ≠ Except.ok (" -password=" ++ y)) ∧
    (cli = "" → ∀ p, d.password = some p →
      extraFlagsPassword cli d = Except.ok (" -password=" ++ p)) := by
  constructor
  · intro hcli
    refine ⟨extraFlagsPassword_cli hcli d, ?_⟩
    intro y _ hy heq
    rw [extraFlagsPassword_cli hcli d] at heq
    injection heq with h
    have hd := congrArg String.data h
    simp only [String.data_append] at hd
    exact hy (String.ext (List.append_cancel_left hd)).symm
  · intro hcli p hp
    subst hcli
    exact extraFlagsPassword_empty_some hp

theorem password_precedence_witness :
    extraFlagsPassword "X" ⟨"a", "u", some "Y", none⟩ = Except.ok (" -password=" ++ "X") ∧
    extraFlagsPassword "X" ⟨"a", "u", some "Y", none⟩ ≠ Except.ok (" -password=" ++ "Y") ∧
    extraFlagsPassword "" ⟨"a", "u", some "Y", none⟩ = Except.ok (" -password=" ++ "Y") :=
  ⟨((password_precedence "X" ⟨"a", "u", some "Y", none⟩).1 (by decide)).1,
   ((password_precedence "X" ⟨"a", "u", some "Y", none⟩).1 (by decide)).2 "Y" rfl (by decide),
   (password_precedence "" ⟨"a", "u", some "Y", none⟩).2 rfl "Y" rfl⟩

/-- C2: Password-failure atomicity.  With no CLI password, if every scanned
node's config loads but some scanned node's config lacks a `password` field,
deploy raises the exception whose message names the missing-password
condition, and no manifest-write event occurs: the manifest is written only
after every scanned node resolves. -/
theorem password_failure_atomicity (dirExists : Nat → Bool)
    (config_of : Nat → Option NodeConfig) (states_path : Nat → String)
    (build_status fuel : Nat) (sudo_flag build_flag up_flag : Bool)
    (hall : ∀ j < n_validators dirExists fuel, (config_of j).isSome = true)
    (hex : ∃ j < n_validators dirExists fuel, ∃ d, config_of j = some d ∧ d.password = none) :
    (deploy dirExists config_of states_path build_status fuel sudo_flag build_flag up_flag
        "").2 =
      Outcome.exception (DeployError.passwordRequired passwordRequiredMsg) ∧
    strInfix "password" passwordRequiredMsg ∧
    ∀ c, Event.writeManifest c ∉
      (deploy dirExists config_of states_path build_status fuel sudo_flag build_flag up_flag
        "").1 := by
  have hloop := deployLoop_password_failure states_path config_of
    (List.range (n_validators dirExists fuel)) ⟨"", ""⟩
    (fun j hj => hall j (List.mem_range.mp hj))
    (by
      obtain ⟨j, hj, d, hd, hp⟩ := hex
      exact ⟨j, List.mem_range.mpr hj, d, hd, hp⟩)
  simp only [deploy, hloop]
  refine ⟨trivial, by decide, ?_⟩
  intro c hc
  simp at hc

theorem password_failure_atomicity_witness :
    (deploy noDirs (fun _ => some cfgNoPw) emptyPath 0 5 false false false "").2 =
      Outcome.exception (DeployError.passwordRequired passwordRequiredMsg) :=
  (password_failure_atomicity noDirs (fun _ => some cfgNoPw) emptyPath 0 5 false false false
    (by decide) ⟨0, by decide, cfgNoPw, rfl, rfl⟩).1

/-- C3 counterexample: discovery does not start its existence checks at
index 0.  With no validator directories at all, the script's scan (which
starts checking at index 1) returns 1, while a scan that starts at index 0
and stops at the first missing index returns 0. -/
theorem discovery_start_counterexample :
    n_validators noDirs 5 = 1 ∧ discoverySpec noDirs 5 = 0 ∧ (1 : Nat) ≠ 0 :=
  ⟨rfl, rfl, by decide⟩

/-- C3 amended: discovery checks directory existence starting at index 1
(index 0 is never checked) and stops at the first missing index: whenever
the first missing index n at or above 1 lies within fuel, the scan returns
n, and the scanned indices are exactly 0..n-1.  In particular for
directories at indices {0,1,2}, a gap at 3 and a stray directory at 4,
discovery returns exactly the indices [0, 1, 2] (the stray directory is
ignored). -/
theorem discovery_first_gap :
    (∀ (dirExists : Nat → Bool) (fuel n : Nat), 1 ≤ n → n ≤ 1 + fuel →
      dirExists n = false → (∀ m, 1 ≤ m → m < n → dirExists m = true) →
      n_validators dirExists fuel = n) ∧
    (∀ fuel, 3 ≤ fuel → n_validators exampleDirs fuel = 3 ∧
      List.range (n_validators exampleDirs fuel) = [0, 1, 2]) := by
  constructor
  · intro dirExists fuel n h1 h2 hn hall
    exact scanValidators_eq dirExists fuel 1 n h1 (by omega) hn fun m hm1 hm2 => hall m hm1 hm2
  · intro fuel hfuel
    have h3 : n_validators exampleDirs fuel = 3 := by
      apply scanValidators_eq exampleDirs fuel 1 3 (by omega) (by omega) (by decide)
      intro m hm1 hm2
      interval_cases m <;> decide
    refine ⟨h3, ?_⟩
    rw [h3]
    decide

theorem discovery_first_gap_witness :
    n_validators exampleDirs 5 = 3 ∧ List.range (n_validators exampleDirs 5) = [0, 1, 2] :=
  discovery_first_gap.2 5 (by decide)

/-- C4 counterexample: with the validator0 directory (and every other
directory and loadable config) missing, deploy does not proceed to a
header-only manifest and complete: the scan still returns 1, and deploy
aborts with a config-load error for node 0 without writing anything. -/
theorem zero_node_counterexample :
    deploy noDirs noConfigs emptyPath 0 5 false false false "pw" =
      ([Event.haltDocker], Outcome.exception (DeployError.configLoad 0)) ∧
    n_validators noDirs 5 ≠ 0 :=
  ⟨rfl, by decide⟩

/-- C4 amended: if the validator0 directory is missing (so its config cannot
be loaded), discovery still yields at least one scanned node — the scan
never checks index 0 and can never return 0 — and deploy fails with the
config-load error for node 0 instead of completing a degenerate deployment;
no manifest is written. -/
theorem zero_node_config_failure (dirExists : Nat → Bool)
    (config_of : Nat → Option NodeConfig) (states_path : Nat → String)
    (build_status fuel : Nat) (sudo_flag build_flag up_flag : Bool) (password : String)
    (h0dir : dirExists 0 = false) (h0 : config_of 0 = none) :
    1 ≤ n_validators dirExists fuel ∧
    (deploy dirExists config_of states_path build_status fuel sudo_flag build_flag up_flag
        password).2 = Outcome.exception (DeployError.configLoad 0) ∧
    ∀ c, Event.writeManifest c ∉
      (deploy dirExists config_of states_path build_status fuel sudo_flag build_flag up_flag
        password).1 := by
  have hge : 1 ≤ n_validators dirExists fuel := scanValidators_ge dirExists fuel 1
  have hloop := deployLoop_configLoad_zero password states_path config_of h0 _ hge ⟨"", ""⟩
  simp only [deploy, hloop]
  refine ⟨hge, trivial, ?_⟩
  intro c hc
  simp at hc

theorem zero_node_config_failure_witness :
    (deploy noDirs noConfigs emptyPath 0 5 false false false "pw").2 =
      Outcome.exception (DeployError.configLoad 0) :=
  (zero_node_config_failure noDirs noConfigs emptyPath 0 5 false false false "pw" rfl
    rfl).2.1

/-- C5: Blocktime scoping.  For a config carrying a blocktime value, the
block rendered for node 0 receives exactly the password flags — the
blocktime flag is never appended for the aggregator — while the block of
every node i ≥ 1 receives the password flags followed by
" -blocktime=" ++ value. -/
theorem blocktime_scoping (password : String) (states_path : Nat → String) (d : NodeConfig)
    (b extra_flags : String) (hb : d.blocktime = some b)
    (hef : extraFlagsPassword password d = Except.ok extra_flags) :
    nodeBlock password states_path (fun _ => some d) 0 =
      Except.ok (compose_header (states_path 0) extra_flags (rewriteEthUrl d.eth_url)
        d.rollup_address) ∧
    ∀ i, 1 ≤ i → nodeBlock password states_path (fun _ => some d) i =
      Except.ok (compose_validator i (states_path i) (extra_flags ++ " -blocktime=" ++ b)
        (rewriteEthUrl d.eth_url) d.rollup_address) := by
  constructor
  · simp [nodeBlock, hef]
  · intro i hi
    have hi0 : i ≠ 0 := by omega
    simp [nodeBlock, hef, hi0, withBlocktime, hb]

theorem blocktime_scoping_witness :
    nodeBlock "" (fun _ => "sp") (fun _ => some cfgBt) 0 =
      Except.ok (compose_header "sp" " -password=pw" (rewriteEthUrl cfgBt.eth_url)
        cfgBt.rollup_address) ∧
    nodeBlock "" (fun _ => "sp") (fun _ => some cfgBt) 1 =
      Except.ok (compose_validator 1 "sp" (" -password=pw" ++ " -blocktime=" ++ "100")
        (rewriteEthUrl cfgBt.eth_url) cfgBt.rollup_address) := by
  have h := blocktime_scoping "" (fun _ => "sp") cfgBt "100" " -password=pw" rfl rfl
  exact ⟨h.1, h.2 1 (by decide)⟩

theorem string_data_empty : "".data = ([] : List Char) := rfl

/-- C6 counterexample: the aggregator command places the resolved flags
before the `state` verb, not after it as the claimed shape
`state <resolved_flags> <endpoint> <rollup_address>` requires: with flags
" -password=p" the rendered command is " -password=p state ws://u 0xabc",
which does not start with "state" and differs from the claimed rendering. -/
theorem aggregator_command_order_counterexample :
    aggregator_command " -password=p" "ws://u" "0xabc" = " -password=p state ws://u 0xabc" ∧
    ¬ "state".data <+: (aggregator_command " -password=p" "ws://u" "0xabc").data ∧
    aggregator_command " -password=p" "ws://u" "0xabc" ≠
      "state" ++ " -password=p" ++ " " ++ "ws://u" ++ " " ++ "0xabc" :=
  ⟨rfl, by decide, by decide⟩

set_option maxRecDepth 8192 in
/-- C6 amended: in the manifest, node 0's aggregator block sets its command
to `<resolved_flags> state <endpoint> <rollup_address>` (the flags precede
the `state` verb) and mounts its own state path; every node i ≥ 1 renders a
uniquely named service `arb-validator<i>` mounting its own state path whose
command is `validate <resolved_flags> state <endpoint> <rollup_address>`;
and the loop renders node 0 through `compose_header` and each node i ≥ 1
through `compose_validator` with exactly those arguments. -/
theorem rendered_command_shapes :
    (∀ ef ws addr, aggregator_command ef ws addr = ef ++ " state " ++ ws ++ " " ++ addr) ∧
    (∀ ef ws addr, validator_command ef ws addr =
      "validate " ++ ef ++ " state " ++ ws ++ " " ++ addr) ∧
    (∀ sp ef ws addr,
      strInfix ("        command: " ++ aggregator_command ef ws addr ++ "\n")
        (compose_header sp ef ws addr) ∧
      strInfix ("            - " ++ sp ++ ":/home/user/state\n")
        (compose_header sp ef ws addr)) ∧
    (∀ i sp ef ws addr,
      strInfix ("\n    " ++ validator_service_name i ++ ":\n")
        (compose_validator i sp ef ws addr) ∧
      strInfix ("            - " ++ sp ++ ":/home/user/state\n")
        (compose_validator i sp ef ws addr) ∧
      strInfix ("        command: " ++ validator_command ef ws addr ++ "\n")
        (compose_validator i sp ef ws addr)) ∧
    (∀ i j, i ≠ j → validator_service_name i ≠ validator_service_name j) ∧
    (∀ password sp cfg d ef, cfg 0 = some d → extraFlagsPassword password d = Except.ok ef →
      nodeBlock password sp cfg 0 =
        Except.ok (compose_header (sp 0) ef (rewriteEthUrl d.eth_url) d.rollup_address)) ∧
    (∀ password sp cfg d ef i, 1 ≤ i → cfg i = some d →
      extraFlagsPassword password d = Except.ok ef →
      nodeBlock password sp cfg i =
        Except.ok (compose_validator i (sp i) (withBlocktime ef d) (rewriteEthUrl d.eth_url)
          d.rollup_address)) := by
  refine ⟨fun ef ws addr => rfl, fun ef ws addr => rfl, ?_, ?_, ?_, ?_, ?_⟩
  · intro sp ef ws addr
    constructor
    · exact strInfix_intro
        ("# Machine generated by `arb-deploy`. Do not version control.\n" ++
          "version: " ++ sQuote ++ "3" ++ sQuote ++ "\n" ++
          "networks:\n" ++ "    default:\n" ++ "        external:\n" ++
          "            name: arb-network\n" ++ "services:\n" ++ "    arb-tx-aggregator:\n" ++
          "        volumes:\n" ++ "            - " ++ sp ++ ":/home/user/state\n" ++
          "        image: arb-validator\n" ++
          "        entrypoint: " ++ sQuote ++ "/home/user/go/bin/arb-tx-aggregator" ++
          sQuote ++ "\n")
        ("        ports:\n" ++ "            - " ++ sQuote ++ "1235:1235" ++ sQuote ++ "\n" ++
          "            - " ++ sQuote ++ "8547:8547" ++ sQuote ++ "\n")
        (by
          apply String.ext
          simp [compose_header, String.data_append, List.append_assoc])
    · exact strInfix_intro
        ("# Machine generated by `arb-deploy`. Do not version control.\n" ++
          "version: " ++ sQuote ++ "3" ++ sQuote ++ "\n" ++
          "networks:\n" ++ "    default:\n" ++ "        external:\n" ++
          "            name: arb-network\n" ++ "services:\n" ++ "    arb-tx-aggregator:\n" ++
          "        volumes:\n")
        ("        image: arb-validator\n" ++
          "        entrypoint: " ++ sQuote ++ "/home/user/go/bin/arb-tx-aggregator" ++
          sQuote ++ "\n" ++
          "        command: " ++ aggregator_command ef ws addr ++ "\n" ++
          "        ports:\n" ++ "            - " ++ sQuote ++ "1235:1235" ++ sQuote ++ "\n" ++
          "            - " ++ sQuote ++ "8547:8547" ++ sQuote ++ "\n")
        (by
          apply String.ext
          simp [compose_header, String.data_append, List.append_assoc])
  · intro i sp ef ws addr
    refine ⟨?_, ?_, ?_⟩
    · exact strInfix_intro ""
        ("        volumes:\n" ++ "            - " ++ sp ++ ":/home/user/state\n" ++
          "        image: arb-validator\n" ++
          "        command: " ++ validator_command ef ws addr ++ "\n")
        (by
          apply String.ext
          simp [compose_validator, string_data_empty, String.data_append, List.append_assoc])
    · exact strInfix_intro
        ("\n    " ++ validator_service_name i ++ ":\n" ++ "        volumes:\n")
        ("        image: arb-validator\n" ++
          "        command: " ++ validator_command ef ws addr ++ "\n")
        (by
          apply String.ext
          simp [compose_validator, String.data_append, List.append_assoc])
    · exact strInfix_intro
        ("\n    " ++ validator_service_name i ++ ":\n" ++ "        volumes:\n" ++
          "            - " ++ sp ++ ":/home/user/state\n" ++ "        image: arb-validator\n")
        ""
        (by
          apply String.ext
          simp [compose_validator, string_data_empty, String.data_append, List.append_assoc])
  · intro i j hne
    exact validator_service_name_injective hne
  · intro password sp cfg d ef hcfg hef
    simp [nodeBlock, hcfg, hef]
  · intro password sp cfg d ef i hi hcfg hef
    have hi0 : i ≠ 0 := by omega
    simp [nodeBlock, hcfg, hef, hi0]

theorem rendered_command_shapes_witness :
    strInfix ("        command: " ++ aggregator_command " -password=p" "ws://u" "0xabc" ++ "\n")
      (compose_header "sp" " -password=p" "ws://u" "0xabc") ∧
    validator_service_name 1 ≠ validator_service_name 2 ∧
    nodeBlock "" (fun _ => "sp") (fun _ => some cfgBt) 1 =
      Except.ok (compose_validator 1 "sp" (withBlocktime " -password=pw" cfgBt)
        (rewriteEthUrl cfgBt.eth_url) cfgBt.rollup_address) :=
  ⟨(rendered_command_shapes.2.2.1 "sp" " -password=p" "ws://u" "0xabc").1,
   rendered_command_shapes.2.2.2.2.1 1 2 (by decide),
   rendered_command_shapes.2.2.2.2.2.2 "" (fun _ => "sp") (fun _ => some cfgBt) cfgBt
     " -password=pw" 1 (by decide) rfl rfl⟩

/-- C7 counterexample: the external build step reports status 2, deploy
aborts, but the process exits with status 1, not with that same status 2 as
the claim states. -/
theorem build_failure_exit_code_counterexample :
    (deploy noDirs oneCfg emptyPath 2 5 false false false "").2 = Outcome.exitCode 1 ∧
    Outcome.exitCode 1 ≠ Outcome.exitCode 2 :=
  ⟨rfl, by decide⟩

/-- C7 amended: whenever the render loop succeeds, the build step is invoked
and reports a non-zero status, deploy aborts before the up phase — no
compose-up event ever occurs — and the process exits with status 1,
whatever the non-zero build status was. -/
theorem build_failure_abort (dirExists : Nat → Bool) (config_of : Nat → Option NodeConfig)
    (states_path : Nat → String) (build_status fuel : Nat)
    (sudo_flag build_flag up_flag : Bool) (password : String) (st : LoopSt)
    (hloop : deployLoop password states_path config_of
        (List.range (n_validators dirExists fuel)) ⟨"", ""⟩ = Except.ok st)
    (hbuild : (!up_flag || build_flag) = true) (hstatus : build_status ≠ 0) :
    (deploy dirExists config_of states_path build_status fuel sudo_flag build_flag up_flag
        password).2 = Outcome.exitCode 1 ∧
    ∀ k a, Event.composeUp k a ∉
      (deploy dirExists config_of states_path build_status fuel sudo_flag build_flag up_flag
        password).1 := by
  have hbs : (build_status != 0) = true := bne_iff_ne.mpr hstatus
  constructor
  · simp [deploy, hloop, hbs, hbuild]
  · intro k a hmem
    simp [deploy, hloop, hbs, hbuild] at hmem

theorem build_failure_abort_witness :
    (deploy noDirs oneCfg emptyPath 2 5 false false false "").2 = Outcome.exitCode 1 :=
  (build_failure_abort noDirs oneCfg emptyPath 2 5 false false false ""
    ⟨compose_header (emptyPath 0) " -password=pw" (rewriteEthUrl cfgBt.eth_url)
        cfgBt.rollup_address,
      cfgBt.rollup_address⟩
    rfl rfl (by decide)).1

/-- C8 counterexample: with both the build-only and up-only flags supplied,
the invocation is rejected, but not before every side effect: the
create-network external command (a side effect) runs before the rejection. -/
theorem mutual_exclusivity_side_effect_counterexample :
    noSideEffectBeforeReject
        (main noDirs noConfigs emptyPath 0 5 false true true "").1 = false ∧
    isSideEffect Event.createNetwork = true ∧
    (main noDirs noConfigs emptyPath 0 5 false true true "").1 =
      [Event.createNetwork, Event.parseReject] :=
  ⟨rfl, rfl, rfl⟩

/-- C8 amended: supplying both the build-only and up-only flags is rejected
by argument parsing (exit status 2) before the teardown, the manifest
write, the build and the up — deploy never runs — but after the
create-network external command, which executes unconditionally before
parsing. -/
theorem mutual_exclusivity_rejection (dirExists : Nat → Bool)
    (config_of : Nat → Option NodeConfig) (states_path : Nat → String)
    (build_status fuel : Nat) (args_sudo : Bool) (args_password : String) :
    main dirExists config_of states_path build_status fuel args_sudo true true args_password =
      ([Event.createNetwork, Event.parseReject], Outcome.exitCode 2) := rfl

/-- C9: Idempotence of the endpoint rewrite: for every `eth_url` string,
performing the localhost-to-cluster-DNS substitution twice produces the
same result as performing it once, so the double substitution the script
performs (`rewriteEthUrl`) equals a single substitution. -/
theorem endpoint_rewrite_idempotent (s : String) :
    rewriteOnce (rewriteOnce s) = rewriteOnce s ∧ rewriteEthUrl s = rewriteOnce s := by
  have h : rewriteOnce (rewriteOnce s) = rewriteOnce s :=
    String.ext (replaceAll_localhost_idem s.data)
  exact ⟨h, h⟩

/-- C10: Per-node flag isolation: the loop's final manifest contents are
exactly the concatenation of the per-node blocks (for any scan result
n ≥ 1), and the per-node block is a function of that node's own config
alone, given its index, its state path, and the CLI password — no password
or blocktime value from any other node's config can leak into node i's
block. -/
theorem per_node_flag_isolation :
    (∀ (password : String) (states_path : Nat → String)
        (config_of : Nat → Option NodeConfig) (n : Nat) (st : LoopSt), 1 ≤ n →
      (deployLoop password states_path config_of (List.range n) st).map LoopSt.contents =
        renderNodes password states_path config_of (List.range n)) ∧
    (∀ (password : String) (states_path : Nat → String)
        (cfgA cfgB : Nat → Option NodeConfig) (i : Nat), cfgA i = cfgB i →
      nodeBlock password states_path cfgA i = nodeBlock password states_path cfgB i) := by
  constructor
  · intro password sp cfg n st hn
    exact deployLoop_range_contents password sp cfg n hn st
  · intro password sp cfgA cfgB i h
    simp only [nodeBlock, h]

theorem per_node_flag_isolation_witness :
    (deployLoop "" emptyPath oneCfg (List.range 1) ⟨"", ""⟩).map LoopSt.contents =
      renderNodes "" emptyPath oneCfg (List.range 1) ∧
    nodeBlock "" emptyPath oneCfg 0 = nodeBlock "" emptyPath (fun _ => some cfgBt) 0 :=
  ⟨per_node_flag_isolation.1 "" emptyPath oneCfg 1 ⟨"", ""⟩ (by decide),
   per_node_flag_isolation.2 "" emptyPath oneCfg (fun _ => some cfgBt) 0 rfl⟩

end ArbDeploy
